import Mathlib

/-!
Verification of the core of the "Gestão de Efetivo - DLF" application
(`gestao_efetivo_app.py`): entity model, identifier assignment, leave
logging with balance deduction, JSON persistence, and dashboard queries.
The Python source is shallowly embedded: each Lean definition translates
the corresponding Python function; Streamlit-page submit handlers are
modelled as state-passing functions, Python exceptions as error values.
-/

namespace GestaoEfetivo

/-- Values of the `Rank` string enum (13 values). -/
def rankValues : List String :=
  ["CEL", "TC", "MAJ", "CAP", "1º TEN", "2º TEN", "ST",
   "1º SGT", "2º SGT", "3º SGT", "CB", "SD", "F.CIVIL"]

/-- Values of the `UserRole` string enum. -/
def userRoleValues : List String := ["ADMIN", "MANAGER", "USER"]

/-- Value of `LeaveType.FERIAS`. -/
def LeaveType.FERIAS : String := "FÉRIAS"

/-- Value of `LeaveType.ABONO`. -/
def LeaveType.ABONO : String := "ABONO"

/-- Values of the `LeaveType` string enum (10 values). -/
def leaveTypeValues : List String :=
  [LeaveType.FERIAS, LeaveType.ABONO, "LTSP", "RESTRIÇÃO", "LICENÇA ESPECIAL",
   "LTIP", "PRONTO EMPREGO", "EXTRA", "REPRESENTAÇÃO", "DISPENSA RECOMPENSA"]

/-- Embedding of Python `datetime.date`: a calendar triple. -/
structure PyDate where
  year : Nat
  month : Nat
  day : Nat
deriving DecidableEq

/-- Python `date` comparison: lexicographic on (year, month, day). -/
def PyDate.ltb (a b : PyDate) : Bool :=
  a.year < b.year ||
    (a.year == b.year &&
      (a.month < b.month || (a.month == b.month && a.day < b.day)))

/-- Gregorian leap-year test, as in Python `calendar.isleap`. -/
def isLeap (y : Nat) : Bool :=
  y % 4 == 0 && (y % 100 != 0 || y % 400 == 0)

/-- Day counts of the twelve months in a non-leap year. -/
def daysInMonthList : List Nat := [31, 28, 31, 30, 31, 30, 31, 31, 30, 31, 30, 31]

/-- Number of days in the years strictly before year `y` (proleptic Gregorian). -/
def daysBeforeYear (y : Nat) : Nat :=
  let yy := y - 1
  yy * 365 + yy / 4 - yy / 100 + yy / 400

/-- Number of days in year `y` strictly before month `m`. -/
def daysBeforeMonth (y m : Nat) : Nat :=
  (daysInMonthList.take (m - 1)).foldl (· + ·) 0 +
    (if 2 < m && isLeap y then 1 else 0)

/-- Python `date.toordinal`: day number with 0001-01-01 as day 1. -/
def PyDate.toordinal (d : PyDate) : Nat :=
  daysBeforeYear d.year + daysBeforeMonth d.year d.month + d.day

/-- Zero-pad a natural below 100 to two digits. -/
def pad2 (n : Nat) : String :=
  if n < 10 then "0" ++ Nat.repr n else Nat.repr n

/-- Zero-pad a natural below 10000 to four digits. -/
def pad4 (n : Nat) : String :=
  if n < 10 then "000" ++ Nat.repr n
  else if n < 100 then "00" ++ Nat.repr n
  else if n < 1000 then "0" ++ Nat.repr n
  else Nat.repr n

/-- Python `date.isoformat`: the "YYYY-MM-DD" rendering. -/
def PyDate.isoformat (d : PyDate) : String :=
  pad4 d.year ++ "-" ++ pad2 d.month ++ "-" ++ pad2 d.day

/-- The `Personnel` dataclass, field for field. -/
structure Personnel where
  id : String
  ant : Int
  grad : String
  quadro : String
  nome : String
  matr : String
  unid : String
  secao : String
  situacao : String
  esc : String
  saldoFerias : Int
  saldoAbono : Int
  role : String
deriving DecidableEq

/-- The `LeaveRecord` dataclass, field for field. -/
structure LeaveRecord where
  id : String
  personnel_id : String
  type : String
  startDate : String
  endDate : String
  description : String
  createdAt : String
deriving DecidableEq

/-- The `AppState` dataclass: the two entity collections. -/
structure AppState where
  personnel : List Personnel
  leaves : List LeaveRecord
deriving DecidableEq

/-- Translation of `default_state`: the empty application state. -/
def default_state : AppState := ⟨[], []⟩

/-- Translation of `generate_id`: prefix followed by (collection size + 1). -/
def generate_id {α : Type} (prefix_ : String) (elements : List α) : String :=
  prefix_ ++ Nat.repr (elements.length + 1)

/-- Translation of `find_person_by_id`: first personnel with the given id. -/
def find_person_by_id (state : AppState) (pid : String) : Option Personnel :=
  state.personnel.find? (fun p => p.id == pid)

/-- Translation of `get_leaves_for_person`. -/
def get_leaves_for_person (state : AppState) (pid : String) : List LeaveRecord :=
  state.leaves.filter (fun l => l.personnel_id == pid)

/-- Outcomes of an operation. `validationError` models the handled
`st.error` branches; `attributeError` and `typeError` model the Python
exceptions of those names escaping the code unhandled. `notFound` and
`corruptState` are the spec document error kinds (`NotFoundError`,
`CorruptStateError`); they are stated here so claims about them can be
expressed, and the code model never produces them. -/
inductive Err where
  | validationError
  | attributeError
  | typeError
  | notFound
  | corruptState
deriving DecidableEq

/-- Replace the first element satisfying `p` by its image under `f`,
modelling Python in-place mutation of the object found by a linear scan. -/
def updateFirst {α : Type} (p : α → Bool) (f : α → α) : List α → List α
  | [] => []
  | x :: xs => if p x then f x :: xs else x :: updateFirst p f xs

/-- Translation of the submit branch of `page_personnel` (registration):
reject empty name or registration number, otherwise append a new
`Personnel` whose id is `generate_id "P"`. Returns the result and the
state after the call (unchanged on error). -/
def registerPersonnel (s : AppState) (nome matr : String) (ant : Int)
    (grad quadro unid secao situacao esc : String)
    (saldo_ferias saldo_abono : Int) (role : String) :
    Except Err Personnel × AppState :=
  if nome == "" || matr == "" then (.error .validationError, s)
  else
    let new : Personnel :=
      ⟨generate_id "P" s.personnel, ant, grad, quadro, nome, matr, unid,
        secao, situacao, esc, saldo_ferias, saldo_abono, role⟩
    (.ok new, ⟨s.personnel ++ [new], s.leaves⟩)

/-- Translation of `days = (end - start).days + 1`: Python date
subtraction is the difference of the ordinals. -/
def leaveDays (startD endD : PyDate) : Int :=
  Int.ofNat endD.toordinal - Int.ofNat startD.toordinal + 1

/-- Translation of the balance-update statements of `page_leaves` (two
independent `if`s on the leave type, each clamping at zero with `max`). -/
def leaveUpd (tipo : String) (days : Int) (p : Personnel) : Personnel :=
  let p1 := if tipo == LeaveType.FERIAS then
      { p with saldoFerias := max 0 (p.saldoFerias - days) } else p
  if tipo == LeaveType.ABONO then
      { p1 with saldoAbono := max 0 (p1.saldoAbono - days) } else p1

/-- Translation of the leave-logging flow of `page_leaves`: the selected
id is looked up with `find_person_by_id` and the resulting object is
dereferenced (`person.nome`, ...), so a failed lookup raises
`AttributeError`; a submitted form with `end < start` hits the
`st.error` branch and changes nothing; otherwise a `LeaveRecord` is
appended and the matching balance deducted, clamped at zero. `now`
stands for `datetime.now().isoformat()`. -/
def logLeave (s : AppState) (pid tipo : String) (startD endD : PyDate)
    (desc now : String) : Except Err LeaveRecord × AppState :=
  match find_person_by_id s pid with
  | none => (.error .attributeError, s)
  | some person =>
    if PyDate.ltb endD startD then (.error .validationError, s)
    else
      let new_leave : LeaveRecord :=
        ⟨generate_id "L" s.leaves, person.id, tipo, startD.isoformat,
          endD.isoformat, desc, now⟩
      (.ok new_leave,
        ⟨updateFirst (fun p => p.id == pid) (leaveUpd tipo (leaveDays startD endD))
            s.personnel,
          s.leaves ++ [new_leave]⟩)

/-- JSON values as produced and consumed by `json.dump` / `json.load`
for this application (only strings, integers, arrays and objects occur). -/
inductive J where
  | str (s : String)
  | int (n : Int)
  | arr (l : List J)
  | obj (l : List (String × J))

/-- Serialization of one `Personnel` as `asdict` produces it. -/
def personnelToJ (p : Personnel) : J :=
  .obj [("id", .str p.id), ("ant", .int p.ant), ("grad", .str p.grad),
    ("quadro", .str p.quadro), ("nome", .str p.nome), ("matr", .str p.matr),
    ("unid", .str p.unid), ("secao", .str p.secao),
    ("situacao", .str p.situacao), ("esc", .str p.esc),
    ("saldoFerias", .int p.saldoFerias), ("saldoAbono", .int p.saldoAbono),
    ("role", .str p.role)]

/-- Serialization of one `LeaveRecord` as `asdict` produces it. -/
def leaveToJ (l : LeaveRecord) : J :=
  .obj [("id", .str l.id), ("personnel_id", .str l.personnel_id),
    ("type", .str l.type), ("startDate", .str l.startDate),
    ("endDate", .str l.endDate), ("description", .str l.description),
    ("createdAt", .str l.createdAt)]

/-- Translation of `save_state`: the full-document snapshot written to
`dados_efetivo.json`. -/
def save_state (state : AppState) : J :=
  .obj [("personnel", .arr (state.personnel.map personnelToJ)),
        ("leaves", .arr (state.leaves.map leaveToJ))]

/-- Dictionary lookup on a JSON object, first match. -/
def jLookup (kvs : List (String × J)) (k : String) : Option J :=
  (kvs.find? (fun kv => kv.1 == k)).map (fun kv => kv.2)

/-- Python `dict.get(k, default)`. -/
def jGetD (kvs : List (String × J)) (k : String) (d : J) : J :=
  (jLookup kvs k).getD d

/-- Extract a string-valued key (keyword argument of the dataclass call). -/
def getStr (kvs : List (String × J)) (k : String) : Except Err String :=
  match jLookup kvs k with
  | some (.str s) => .ok s
  | _ => .error .typeError

/-- Extract an integer-valued key (keyword argument of the dataclass call). -/
def getInt (kvs : List (String × J)) (k : String) : Except Err Int :=
  match jLookup kvs k with
  | some (.int n) => .ok n
  | _ => .error .typeError

/-- Iterating a JSON value as a list; a non-array raises `TypeError`. -/
def asArr (j : J) : Except Err (List J) :=
  match j with
  | .arr l => .ok l
  | _ => .error .typeError

/-- Translation of `Personnel(**p)`: the keyword set must be exactly the
13 dataclass fields (a missing or unexpected keyword raises `TypeError`). -/
def personnelFromJ (j : J) : Except Err Personnel :=
  match j with
  | .obj kvs =>
    if kvs.length == 13 then do
      let id ← getStr kvs "id"
      let ant ← getInt kvs "ant"
      let grad ← getStr kvs "grad"
      let quadro ← getStr kvs "quadro"
      let nome ← getStr kvs "nome"
      let matr ← getStr kvs "matr"
      let unid ← getStr kvs "unid"
      let secao ← getStr kvs "secao"
      let situacao ← getStr kvs "situacao"
      let esc ← getStr kvs "esc"
      let saldoFerias ← getInt kvs "saldoFerias"
      let saldoAbono ← getInt kvs "saldoAbono"
      let role ← getStr kvs "role"
      pure ⟨id, ant, grad, quadro, nome, matr, unid, secao, situacao, esc,
        saldoFerias, saldoAbono, role⟩
    else .error .typeError
  | _ => .error .typeError

/-- Translation of `LeaveRecord(**l)`. -/
def leaveFromJ (j : J) : Except Err LeaveRecord :=
  match j with
  | .obj kvs =>
    if kvs.length == 7 then do
      let id ← getStr kvs "id"
      let personnel_id ← getStr kvs "personnel_id"
      let type_ ← getStr kvs "type"
      let startDate ← getStr kvs "startDate"
      let endDate ← getStr kvs "endDate"
      let description ← getStr kvs "description"
      let createdAt ← getStr kvs "createdAt"
      pure ⟨id, personnel_id, type_, startDate, endDate, description, createdAt⟩
    else .error .typeError
  | _ => .error .typeError

/-- Translation of `load_state`. `none` models a missing
`dados_efetivo.json`; a present file is the parsed JSON document. Missing
top-level keys default to the empty list (`raw.get(key, [])`); a
non-object document raises `AttributeError` at `raw.get`. -/
def load_state (file : Option J) : Except Err AppState :=
  match file with
  | none => .ok default_state
  | some j =>
    match j with
    | .obj kvs => do
      let pl ← asArr (jGetD kvs "personnel" (.arr []))
      let ll ← asArr (jGetD kvs "leaves" (.arr []))
      let personnel ← pl.mapM personnelFromJ
      let leaves ← ll.mapM leaveFromJ
      pure ⟨personnel, leaves⟩
    | _ => .error .attributeError

/-- The system state: the in-memory `AppState` of the session plus the
content of `dados_efetivo.json` (`none` when the file does not exist). -/
structure Sys where
  state : AppState
  file : Option J

/-- Registration as run by the page: the core operation followed, on
success only, by `save_state`. -/
def registerPersonnelSys (sys : Sys) (nome matr : String) (ant : Int)
    (grad quadro unid secao situacao esc : String)
    (saldo_ferias saldo_abono : Int) (role : String) :
    Except Err Personnel × Sys :=
  match registerPersonnel sys.state nome matr ant grad quadro unid secao
      situacao esc saldo_ferias saldo_abono role with
  | (.ok p, s2) => (.ok p, ⟨s2, some (save_state s2)⟩)
  | (.error e, s2) => (.error e, ⟨s2, sys.file⟩)

/-- Leave logging as run by the page: the core operation followed, on
success only, by `save_state`. -/
def logLeaveSys (sys : Sys) (pid tipo : String) (startD endD : PyDate)
    (desc now : String) : Except Err LeaveRecord × Sys :=
  match logLeave sys.state pid tipo startD endD desc now with
  | (.ok r, s2) => (.ok r, ⟨s2, some (save_state s2)⟩)
  | (.error e, s2) => (.error e, ⟨s2, sys.file⟩)

/-- Lexicographic less-or-equal on character lists, by code point. -/
def charListLe : List Char → List Char → Bool
  | [], _ => true
  | _ :: _, [] => false
  | a :: as, b :: bs =>
    if a < b then true else if b < a then false else charListLe as bs

/-- Python string comparison `a <= b`: lexicographic by code point. -/
def pyLe (a b : String) : Bool := charListLe a.data b.data

/-- Translation of the `em_ferias` count of `page_dashboard`: the number
of leave records of type FÉRIAS whose date-string range contains `hoje`
(the loop increments once per matching record). -/
def em_ferias (state : AppState) (hoje : String) : Nat :=
  (state.leaves.filter (fun l =>
    l.type == LeaveType.FERIAS &&
      (pyLe l.startDate hoje && pyLe hoje l.endDate))).length

/-- Stated from the spec (§4.3), for comparison with `em_ferias`: the
count of distinct Personnel whose id appears on an in-range FÉRIAS
record. -/
def personnelOnLeaveToday_spec (state : AppState) (hoje : String) : Nat :=
  (state.personnel.filter (fun p =>
    state.leaves.any (fun l =>
      l.personnel_id == p.id && (l.type == LeaveType.FERIAS &&
        (pyLe l.startDate hoje && pyLe hoje l.endDate))))).length

/-- An input event of the core: one registration form submission or one
leave form submission. -/
inductive Op where
  | register (nome matr : String) (ant : Int)
      (grad quadro unid secao situacao esc : String)
      (saldo_ferias saldo_abono : Int) (role : String)
  | leave (pid tipo : String) (startD endD : PyDate) (desc now : String)

/-- The state after one operation (unchanged when the operation errors). -/
def applyOp (s : AppState) : Op → AppState
  | .register nome matr ant grad quadro unid secao situacao esc sf sa role =>
    (registerPersonnel s nome matr ant grad quadro unid secao situacao esc
      sf sa role).2
  | .leave pid tipo sd ed desc now => (logLeave s pid tipo sd ed desc now).2

/-- Run a sequence of operations from the empty initial state. -/
def runOps (ops : List Op) : AppState := ops.foldl applyOp default_state

/-- Constraints the Streamlit form widgets put on a submission: the
registration number inputs have `min_value=1` (seniority) and
`min_value=0` (both balances). -/
def Op.widgetOK : Op → Prop
  | .register _ _ ant _ _ _ _ _ _ sf sa _ => 1 ≤ ant ∧ 0 ≤ sf ∧ 0 ≤ sa
  | .leave _ _ _ _ _ _ => True

/-- Invariant: every stored balance is non-negative. -/
def BalInv (s : AppState) : Prop :=
  ∀ p ∈ s.personnel, 0 ≤ p.saldoFerias ∧ 0 ≤ p.saldoAbono

/-- Invariant: both id sequences are exactly positional. -/
def IdInv (s : AppState) : Prop :=
  s.personnel.map (fun p => p.id) =
      (List.range s.personnel.length).map (fun i => "P" ++ Nat.repr (i + 1)) ∧
    s.leaves.map (fun l => l.id) =
      (List.range s.leaves.length).map (fun i => "L" ++ Nat.repr (i + 1))

/-- Concrete fixture: one registered service member. -/
def wPerson : Personnel :=
  ⟨"P1", 1, "CB", "QOPM", "Maria Silva", "12345", "DLF", "SAD", "ATIVO",
    "EXP", 30, 5, "USER"⟩

/-- Concrete fixture: a state holding only `wPerson`. -/
def wState : AppState := ⟨[wPerson], []⟩

/-- Concrete fixture: two FÉRIAS records of the same person, both
spanning 2024-01-05. -/
def wStateTwoLeaves : AppState :=
  ⟨[wPerson],
    [⟨"L1", "P1", "FÉRIAS", "2024-01-01", "2024-01-10", "", "t1"⟩,
     ⟨"L2", "P1", "FÉRIAS", "2024-01-02", "2024-01-11", "", "t2"⟩]⟩

/-- Concrete fixture: a `LeaveRecord` value whose end date precedes its
start date and whose type is outside the `LeaveType` enumeration; the
dataclass constructor builds it without complaint. -/
def badLeave : LeaveRecord :=
  ⟨"L1", "P1", "NOT A LEAVE TYPE", "2024-01-10", "2024-01-01", "", "t"⟩

/-- Concrete fixture: a well-shaped snapshot whose stored vacation
balance is negative. -/
def negBalanceDoc : J :=
  .obj [("personnel", .arr [.obj [("id", .str "P1"), ("ant", .int 1),
    ("grad", .str "SD"), ("quadro", .str "QOPM"), ("nome", .str "X"),
    ("matr", .str "99"), ("unid", .str "DLF"), ("secao", .str "SAD"),
    ("situacao", .str "ATIVO"), ("esc", .str "EXP"),
    ("saldoFerias", .int (-1)), ("saldoAbono", .int 5),
    ("role", .str "USER")]]),
    ("leaves", .arr [])]

/-- Concrete fixture: an operation sequence with two registrations and
one leave log. -/
def wOps : List Op :=
  [Op.register "Maria Silva" "12345" 1 "CB" "QOPM" "DLF" "SAD" "ATIVO"
      "EXP" 30 5 "USER",
   Op.register "João Souza" "54321" 2 "SD" "QPPMC" "DLF" "SAD" "ATIVO"
      "EXP" 30 5 "USER",
   Op.leave "P1" LeaveType.FERIAS ⟨2024, 1, 1⟩ ⟨2024, 1, 10⟩ "" "t"]

/-- Concrete fixture: the state of "P1" after running `wOps` (ten FÉRIAS
days deducted from the initial thirty). -/
def wRunP1 : Personnel :=
  ⟨"P1", 1, "CB", "QOPM", "Maria Silva", "12345", "DLF", "SAD", "ATIVO",
    "EXP", 20, 5, "USER"⟩

/-- Concrete fixture: the second personnel registered by `wOps`. -/
def wSecondPerson : Personnel :=
  ⟨"P2", 2, "SD", "QPPMC", "João Souza", "54321", "DLF", "SAD", "ATIVO",
    "EXP", 30, 5, "USER"⟩

/-- Concrete fixture: the leave record created by `wOps`. -/
def wFirstLeave : LeaveRecord :=
  ⟨"L1", "P1", "FÉRIAS", "2024-01-01", "2024-01-10", "", "t"⟩

/-- Concrete fixture: the record created by a two-day ABONO log. -/
def wAbonoLeave : LeaveRecord :=
  ⟨"L1", "P1", "ABONO", "2024-01-01", "2024-01-02", "", "t"⟩

/-- Concrete fixture: the personnel created by registering into the
empty state. -/
def wRegResult : Personnel :=
  ⟨"P1", 1, "SD", "Q", "A", "B", "U", "S", "A", "E", 30, 5, "USER"⟩

/-! Helper lemmas: injectivity of decimal rendering, `updateFirst`,
serialization round trips. -/

lemma digitChar_inj_lt10 :
    ∀ a, a < 10 → ∀ b, b < 10 → Nat.digitChar a = Nat.digitChar b → a = b := by
  decide

lemma map_digitChar_inj :
    ∀ (l1 l2 : List Nat), (∀ d ∈ l1, d < 10) → (∀ d ∈ l2, d < 10) →
      l1.map Nat.digitChar = l2.map Nat.digitChar → l1 = l2 := by
  intro l1
  induction l1 with
  | nil =>
    intro l2 _ _ h
    cases l2 with
    | nil => rfl
    | cons b bs => simp at h
  | cons a as ih =>
    intro l2 h1 h2 h
    cases l2 with
    | nil => simp at h
    | cons b bs =>
      simp only [List.map_cons, List.cons.injEq] at h
      have ha : a < 10 := h1 a (List.mem_cons_self a as)
      have hb : b < 10 := h2 b (List.mem_cons_self b bs)
      have hab : a = b := digitChar_inj_lt10 a ha b hb h.1
      have : as = bs := by
        refine ih bs (fun d hd => h1 d (List.mem_cons_of_mem a hd))
          (fun d hd => h2 d (List.mem_cons_of_mem b hd)) h.2
      rw [hab, this]

lemma toDigitsCore_eq_digits :
    ∀ (f : Nat), ∀ (n : Nat) (l : List Char), 0 < n → n < f →
      Nat.toDigitsCore 10 f n l =
        ((Nat.digits 10 n).reverse.map Nat.digitChar) ++ l := by
  intro f
  induction f with
  | zero => intro n l hn hf; omega
  | succ f ih =>
    intro n l hn hf
    rw [Nat.toDigitsCore]
    by_cases h0 : n / 10 = 0
    · simp only [h0, if_pos]
      rw [Nat.digits_def' (by norm_num : (1:Nat) < 10) hn, h0, Nat.digits_zero]
      simp
    · simp only [h0, if_neg, if_false]
      have hn2 : 0 < n / 10 := Nat.pos_of_ne_zero h0
      have hlt : n / 10 < f := by
        have := Nat.div_lt_self hn (by norm_num : (1:Nat) < 10)
        omega
      rw [ih (n / 10) (Nat.digitChar (n % 10) :: l) hn2 hlt]
      rw [Nat.digits_def' (by norm_num : (1:Nat) < 10) hn]
      simp

lemma repr_pos_eq (n : Nat) (h : 0 < n) :
    Nat.repr n = ((Nat.digits 10 n).reverse.map Nat.digitChar).asString := by
  show (Nat.toDigits 10 n).asString = _
  rw [Nat.toDigits, toDigitsCore_eq_digits (n + 1) n [] h (Nat.lt_succ_self n)]
  simp

lemma repr_pos_inj {m n : Nat} (hm : 0 < m) (hn : 0 < n)
    (h : Nat.repr m = Nat.repr n) : m = n := by
  rw [repr_pos_eq m hm, repr_pos_eq n hn, List.asString_inj] at h
  have hd : (Nat.digits 10 m).reverse = (Nat.digits 10 n).reverse := by
    refine map_digitChar_inj _ _ ?_ ?_ h
    · intro d hd
      exact Nat.digits_lt_base (by norm_num) (List.mem_reverse.mp hd)
    · intro d hd
      exact Nat.digits_lt_base (by norm_num) (List.mem_reverse.mp hd)
  rw [List.reverse_inj] at hd
  exact Nat.digits_inj_iff.mp hd

lemma prefixed_id_inj (s : String) {m n : Nat} (hm : 0 < m) (hn : 0 < n)
    (h : s ++ Nat.repr m = s ++ Nat.repr n) : m = n := by
  have hdata : (s ++ Nat.repr m).data = (s ++ Nat.repr n).data := by rw [h]
  rw [String.data_append, String.data_append] at hdata
  have := List.append_cancel_left hdata
  exact repr_pos_inj hm hn (String.ext this)

lemma length_updateFirst {α : Type} (p : α → Bool) (f : α → α) :
    ∀ l : List α, (updateFirst p f l).length = l.length := by
  intro l
  induction l with
  | nil => rfl
  | cons x xs ih =>
    rw [updateFirst]
    by_cases h : p x
    · simp [h]
    · simp [h, ih]

lemma updateFirst_get?_or {α : Type} (p : α → Bool) (f : α → α) :
    ∀ (l : List α) (i : Nat),
      (updateFirst p f l).get? i = l.get? i ∨
        (updateFirst p f l).get? i = (l.get? i).map f := by
  intro l
  induction l with
  | nil => intro i; left; rfl
  | cons x xs ih =>
    intro i
    cases hp : p x
    · cases i with
      | zero => left; simp [updateFirst, hp]
      | succ j =>
        rcases ih j with h | h
        · left; simpa [updateFirst, hp] using h
        · right; simpa [updateFirst, hp] using h
    · cases i with
      | zero => right; simp [updateFirst, hp]
      | succ j => left; simp [updateFirst, hp]

lemma updateFirst_get?_of_p_false {α : Type} (p : α → Bool) (f : α → α) :
    ∀ (l : List α) (i : Nat) (a : α),
      l.get? i = some a → p a = false →
      (updateFirst p f l).get? i = some a := by
  intro l
  induction l with
  | nil => intro i a h; exact absurd h (by simp)
  | cons x xs ih =>
    intro i a h hpa
    cases hp : p x
    · cases i with
      | zero => simpa [updateFirst, hp] using h
      | succ j =>
        have hj : xs.get? j = some a := by simpa using h
        simpa [updateFirst, hp] using ih j a hj hpa
    · cases i with
      | zero =>
        exfalso
        have hax : a = x := by simpa using h.symm
        rw [hax, hp] at hpa
        exact Bool.noConfusion hpa
      | succ j => simpa [updateFirst, hp] using h

lemma updateFirst_find {α : Type} (p : α → Bool) (f : α → α)
    (hpf : ∀ x, p (f x) = p x) :
    ∀ l : List α, (updateFirst p f l).find? p = (l.find? p).map f := by
  intro l
  induction l with
  | nil => rfl
  | cons x xs ih =>
    rw [updateFirst]
    by_cases hp : p x
    · simp [List.find?, hp, hpf]
    · simp only [hp, if_neg, if_false]
      have hp0 : p x = false := by simpa using hp
      simp [List.find?, hp0, ih]

lemma mem_updateFirst {α : Type} (p : α → Bool) (f : α → α) :
    ∀ (l : List α) (x : α), x ∈ updateFirst p f l →
      x ∈ l ∨ ∃ y, y ∈ l ∧ x = f y := by
  intro l
  induction l with
  | nil => intro x hx; exact absurd hx (List.not_mem_nil x)
  | cons a as ih =>
    intro x hx
    rw [updateFirst] at hx
    by_cases hp : p a
    · simp only [hp, if_pos] at hx
      rcases List.mem_cons.mp hx with h | h
      · right; exact ⟨a, List.mem_cons_self a as, h⟩
      · left; exact List.mem_cons_of_mem a h
    · simp only [hp, if_neg, if_false] at hx
      rcases List.mem_cons.mp hx with h | h
      · left; rw [h]; exact List.mem_cons_self a as
      · rcases ih x h with h2 | ⟨y, hy, hxy⟩
        · left; exact List.mem_cons_of_mem a h2
        · right; exact ⟨y, List.mem_cons_of_mem a hy, hxy⟩

lemma updateFirst_map_invariant {α β : Type} (p : α → Bool) (f : α → α)
    (g : α → β) (hg : ∀ x, g (f x) = g x) :
    ∀ l : List α, (updateFirst p f l).map g = l.map g := by
  intro l
  induction l with
  | nil => rfl
  | cons x xs ih =>
    rw [updateFirst]
    by_cases hp : p x
    · simp [hp, hg]
    · simp [hp, ih]

lemma personnelFromJ_toJ (p : Personnel) : personnelFromJ (personnelToJ p) = .ok p := rfl

lemma leaveFromJ_toJ (l : LeaveRecord) : leaveFromJ (leaveToJ l) = .ok l := rfl

lemma mapM_roundtrip {α β : Type} (h : α → β) (g : β → Except Err α)
    (hrt : ∀ a, g (h a) = .ok a) :
    ∀ l : List α, (l.map h).mapM g = .ok l := by
  intro l
  induction l with
  | nil => rfl
  | cons a as ih =>
    rw [List.map_cons, List.mapM_cons, hrt a, ih]
    rfl

lemma ferias_ne_abono : LeaveType.FERIAS ≠ LeaveType.ABONO := by decide

lemma abono_ne_ferias : LeaveType.ABONO ≠ LeaveType.FERIAS := by decide

lemma leaveUpd_saldoFerias (tipo : String) (days : Int) (p : Personnel) :
    (leaveUpd tipo days p).saldoFerias =
      if tipo = LeaveType.FERIAS then max 0 (p.saldoFerias - days)
      else p.saldoFerias := by
  unfold leaveUpd
  by_cases hf : tipo = LeaveType.FERIAS <;>
    by_cases ha : tipo = LeaveType.ABONO <;>
    simp [hf, ha, ferias_ne_abono, abono_ne_ferias]

lemma leaveUpd_saldoAbono (tipo : String) (days : Int) (p : Personnel) :
    (leaveUpd tipo days p).saldoAbono =
      if tipo = LeaveType.ABONO then max 0 (p.saldoAbono - days)
      else p.saldoAbono := by
  unfold leaveUpd
  by_cases hf : tipo = LeaveType.FERIAS <;>
    by_cases ha : tipo = LeaveType.ABONO <;>
    simp [hf, ha, ferias_ne_abono, abono_ne_ferias]

lemma leaveUpd_frame (tipo : String) (days : Int) (p : Personnel) :
    (leaveUpd tipo days p).id = p.id ∧
    (leaveUpd tipo days p).ant = p.ant ∧
    (leaveUpd tipo days p).grad = p.grad ∧
    (leaveUpd tipo days p).quadro = p.quadro ∧
    (leaveUpd tipo days p).nome = p.nome ∧
    (leaveUpd tipo days p).matr = p.matr ∧
    (leaveUpd tipo days p).unid = p.unid ∧
    (leaveUpd tipo days p).secao = p.secao ∧
    (leaveUpd tipo days p).situacao = p.situacao ∧
    (leaveUpd tipo days p).esc = p.esc ∧
    (leaveUpd tipo days p).role = p.role := by
  unfold leaveUpd
  by_cases hf : tipo = LeaveType.FERIAS <;>
    by_cases ha : tipo = LeaveType.ABONO <;>
    simp [hf, ha, ferias_ne_abono, abono_ne_ferias]

lemma leaveUpd_id (tipo : String) (days : Int) (p : Personnel) :
    (leaveUpd tipo days p).id = p.id :=
  (leaveUpd_frame tipo days p).1

lemma logLeave_eq_of_find_none {s : AppState} {pid : String} (tipo : String)
    (startD endD : PyDate) (desc now : String)
    (h : find_person_by_id s pid = none) :
    logLeave s pid tipo startD endD desc now = (.error .attributeError, s) := by
  unfold logLeave
  rw [h]

lemma logLeave_eq_of_lt {s : AppState} {pid : String} (tipo : String)
    {startD endD : PyDate} (desc now : String) {person : Personnel}
    (h : find_person_by_id s pid = some person)
    (hlt : PyDate.ltb endD startD = true) :
    logLeave s pid tipo startD endD desc now = (.error .validationError, s) := by
  unfold logLeave
  rw [h]
  simp [hlt]

lemma logLeave_eq_ok {s : AppState} {pid : String} (tipo : String)
    {startD endD : PyDate} (desc now : String) {person : Personnel}
    (h : find_person_by_id s pid = some person)
    (hlt : PyDate.ltb endD startD = false) :
    logLeave s pid tipo startD endD desc now =
      (.ok ⟨generate_id "L" s.leaves, person.id, tipo, startD.isoformat,
          endD.isoformat, desc, now⟩,
        ⟨updateFirst (fun p => p.id == pid)
            (leaveUpd tipo (leaveDays startD endD)) s.personnel,
          s.leaves ++ [⟨generate_id "L" s.leaves, person.id, tipo,
            startD.isoformat, endD.isoformat, desc, now⟩]⟩) := by
  unfold logLeave
  rw [h]
  simp [hlt]

lemma logLeave_ok_elim {s : AppState} {pid tipo : String} {startD endD : PyDate}
    {desc now : String} {r : LeaveRecord} {s2 : AppState}
    (hcall : logLeave s pid tipo startD endD desc now = (.ok r, s2)) :
    ∃ person, find_person_by_id s pid = some person ∧
      PyDate.ltb endD startD = false ∧
      r = ⟨generate_id "L" s.leaves, person.id, tipo, startD.isoformat,
        endD.isoformat, desc, now⟩ ∧
      s2 = ⟨updateFirst (fun p => p.id == pid)
          (leaveUpd tipo (leaveDays startD endD)) s.personnel,
        s.leaves ++ [r]⟩ := by
  cases hf : find_person_by_id s pid with
  | none =>
    rw [logLeave_eq_of_find_none tipo startD endD desc now hf] at hcall
    simp at hcall
  | some person =>
    cases hlt : PyDate.ltb endD startD with
    | true =>
      rw [logLeave_eq_of_lt tipo desc now hf hlt] at hcall
      simp at hcall
    | false =>
      rw [logLeave_eq_ok tipo desc now hf hlt] at hcall
      simp only [Prod.mk.injEq, Except.ok.injEq] at hcall
      refine ⟨person, rfl, rfl, hcall.1.symm, ?_⟩
      rw [← hcall.2, hcall.1]

lemma registerPersonnel_ok_elim {s : AppState} {nome matr : String} {ant : Int}
    {grad quadro unid secao situacao esc : String} {sf sa : Int} {role : String}
    {p : Personnel} {s2 : AppState}
    (hcall : registerPersonnel s nome matr ant grad quadro unid secao situacao
      esc sf sa role = (.ok p, s2)) :
    (nome == "" || matr == "") = false ∧
      p = ⟨generate_id "P" s.personnel, ant, grad, quadro, nome, matr, unid,
        secao, situacao, esc, sf, sa, role⟩ ∧
      s2 = ⟨s.personnel ++ [p], s.leaves⟩ := by
  unfold registerPersonnel at hcall
  by_cases h : (nome == "" || matr == "") = true
  · rw [if_pos h] at hcall; simp at hcall
  · rw [if_neg h] at hcall
    simp only [Prod.mk.injEq, Except.ok.injEq] at hcall
    exact ⟨by simpa using h, hcall.1.symm, by rw [← hcall.2, hcall.1]⟩

/-! Claim theorems. -/

/-- C6: for every AppState, saving it with `save_state` and loading the
resulting document with `load_state` reconstructs an AppState equal to
the original, every field of every entity preserved and both collections
in the same order. -/
theorem save_load_roundtrip (s : AppState) :
    load_state (some (save_state s)) = .ok s := by
  have h1 : (s.personnel.map personnelToJ).mapM personnelFromJ = .ok s.personnel :=
    mapM_roundtrip personnelToJ personnelFromJ personnelFromJ_toJ s.personnel
  have h2 : (s.leaves.map leaveToJ).mapM leaveFromJ = .ok s.leaves :=
    mapM_roundtrip leaveToJ leaveFromJ leaveFromJ_toJ s.leaves
  show (do
    let personnel ← (s.personnel.map personnelToJ).mapM personnelFromJ
    let leaves ← (s.leaves.map leaveToJ).mapM leaveFromJ
    pure (AppState.mk personnel leaves) : Except Err AppState) = .ok s
  rw [h1, h2]
  rfl

/-- C1: on every successful `logLeave` call, with
`days = leaveDays startD endD` (the inclusive day count), the owning
Personnel found after the call has vacation balance
`max 0 (before - days)` when the type is FÉRIAS, special-leave balance
`max 0 (before - days)` when the type is ABONO, and both balances
unchanged for every other leave type. -/
theorem logLeave_balance_update (s : AppState) (pid tipo : String)
    (startD endD : PyDate) (desc now : String) (r : LeaveRecord)
    (s2 : AppState) (person : Personnel)
    (hfind : find_person_by_id s pid = some person)
    (hcall : logLeave s pid tipo startD endD desc now = (.ok r, s2)) :
    ∃ person2, find_person_by_id s2 pid = some person2 ∧
      person2.saldoFerias =
        (if tipo = LeaveType.FERIAS then
          max 0 (person.saldoFerias - leaveDays startD endD)
        else person.saldoFerias) ∧
      person2.saldoAbono =
        (if tipo = LeaveType.ABONO then
          max 0 (person.saldoAbono - leaveDays startD endD)
        else person.saldoAbono) := by
  obtain ⟨person0, hf0, hlt, hr, hs2⟩ := logLeave_ok_elim hcall
  rw [hfind] at hf0
  obtain rfl : person = person0 := by injection hf0
  refine ⟨leaveUpd tipo (leaveDays startD endD) person, ?_, ?_, ?_⟩
  · rw [hs2]
    show (updateFirst (fun p => p.id == pid)
        (leaveUpd tipo (leaveDays startD endD)) s.personnel).find?
        (fun p => p.id == pid) = _
    rw [updateFirst_find (fun p => p.id == pid)
      (leaveUpd tipo (leaveDays startD endD))
      (fun x => by simp only [leaveUpd_id]) s.personnel]
    show (find_person_by_id s pid).map _ = _
    rw [hfind]
    rfl
  · exact leaveUpd_saldoFerias tipo (leaveDays startD endD) person
  · exact leaveUpd_saldoAbono tipo (leaveDays startD endD) person

/-- C1 witness: logging a 10-day FÉRIAS leave (2024-01-01 to 2024-01-10)
for the person with 30 vacation days leaves 20 vacation days and the
abono balance untouched. -/
theorem logLeave_balance_update_witness :
    ∃ person2,
      find_person_by_id
        (logLeave wState "P1" LeaveType.FERIAS ⟨2024, 1, 1⟩ ⟨2024, 1, 10⟩
          "férias anuais" "t").2 "P1" = some person2 ∧
      person2.saldoFerias = 20 ∧ person2.saldoAbono = 5 := by
  obtain ⟨p2, hf, hsf, hsa⟩ :=
    logLeave_balance_update wState "P1" LeaveType.FERIAS ⟨2024, 1, 1⟩
      ⟨2024, 1, 10⟩ "férias anuais" "t" _ _ wPerson rfl rfl
  refine ⟨p2, hf, ?_, ?_⟩
  · rw [hsf]; decide
  · rw [hsa]; decide

/-- C2 counterexample: calling the leave operation with the unknown id
"P2" does not produce the structured `NotFoundError` the claim promises;
it raises `AttributeError` (the `None` returned by the lookup is
dereferenced). -/
theorem logLeave_unknown_id_cx :
    (logLeaveSys ⟨wState, none⟩ "P2" LeaveType.FERIAS ⟨2024, 1, 1⟩
        ⟨2024, 1, 2⟩ "" "t").1 = .error .attributeError ∧
    (logLeaveSys ⟨wState, none⟩ "P2" LeaveType.FERIAS ⟨2024, 1, 1⟩
        ⟨2024, 1, 2⟩ "" "t").1 ≠ .error .notFound := by
  refine ⟨rfl, fun h => ?_⟩
  rw [show (logLeaveSys ⟨wState, none⟩ "P2" LeaveType.FERIAS ⟨2024, 1, 1⟩
      ⟨2024, 1, 2⟩ "" "t").1 = .error .attributeError from rfl] at h
  injection h with h2
  exact Err.noConfusion h2

/-- C2 amended: for every identifier that resolves to no Personnel, the
leave operation ends in an `AttributeError` crash (not a structured
NotFoundError), and neither the collections nor the persisted file are
mutated. -/
theorem logLeave_unknown_id (sys : Sys) (pid tipo : String)
    (startD endD : PyDate) (desc now : String)
    (hfind : find_person_by_id sys.state pid = none) :
    logLeaveSys sys pid tipo startD endD desc now =
      (.error .attributeError, sys) := by
  unfold logLeaveSys
  rw [logLeave_eq_of_find_none tipo startD endD desc now hfind]

/-- C2 amended witness: the unknown id "P2" against the one-person
state. -/
theorem logLeave_unknown_id_witness :
    logLeaveSys ⟨wState, none⟩ "P2" LeaveType.FERIAS ⟨2024, 1, 1⟩
        ⟨2024, 1, 2⟩ "" "t" = (.error .attributeError, ⟨wState, none⟩) :=
  logLeave_unknown_id ⟨wState, none⟩ "P2" LeaveType.FERIAS ⟨2024, 1, 1⟩
    ⟨2024, 1, 2⟩ "" "t" rfl

/-- C3: whenever the end date precedes the start date (and the selected
id resolves, as the page guarantees), the leave operation reports a
validation error and leaves the whole system — leave collection,
personnel balances, and the persisted file — exactly as it was. -/
theorem logLeave_inverted_dates_rejected (sys : Sys) (pid tipo : String)
    (startD endD : PyDate) (desc now : String) (person : Personnel)
    (hfind : find_person_by_id sys.state pid = some person)
    (hlt : PyDate.ltb endD startD = true) :
    logLeaveSys sys pid tipo startD endD desc now =
      (.error .validationError, sys) := by
  unfold logLeaveSys
  rw [logLeave_eq_of_lt tipo desc now hfind hlt]

/-- C3 witness: 2024-01-10 to 2024-01-01 is rejected and the system is
returned unchanged. -/
theorem logLeave_inverted_dates_rejected_witness :
    logLeaveSys ⟨wState, none⟩ "P1" LeaveType.FERIAS ⟨2024, 1, 10⟩
        ⟨2024, 1, 1⟩ "" "t" = (.error .validationError, ⟨wState, none⟩) :=
  logLeave_inverted_dates_rejected ⟨wState, none⟩ "P1" LeaveType.FERIAS
    ⟨2024, 1, 10⟩ ⟨2024, 1, 1⟩ "" "t" wPerson rfl rfl

/-- C4 counterexample: with one person owning two FÉRIAS records that
both span 2024-01-05, the dashboard counter returns 2 (one per record),
while the count of distinct personnel on leave is 1. -/
theorem em_ferias_counts_records_cx :
    em_ferias wStateTwoLeaves "2024-01-05" = 2 ∧
      personnelOnLeaveToday_spec wStateTwoLeaves "2024-01-05" = 1 ∧
      (2 : Nat) ≠ 1 := by
  refine ⟨by decide, by decide, by decide⟩

/-- C4 amended: the dashboard counter counts FÉRIAS leave records whose
date range contains today — one per record, so a person with several
overlapping FÉRIAS records is counted once per record — and records of
every other leave type contribute nothing. -/
theorem em_ferias_counts_records (s : AppState) (hoje : String)
    (l : LeaveRecord) :
    (l.type = LeaveType.FERIAS → pyLe l.startDate hoje = true →
      pyLe hoje l.endDate = true →
      em_ferias ⟨s.personnel, s.leaves ++ [l]⟩ hoje = em_ferias s hoje + 1) ∧
    (¬(l.type = LeaveType.FERIAS ∧ pyLe l.startDate hoje = true ∧
        pyLe hoje l.endDate = true) →
      em_ferias ⟨s.personnel, s.leaves ++ [l]⟩ hoje = em_ferias s hoje) := by
  constructor
  · intro h1 h2 h3
    simp [em_ferias, List.filter_append, List.filter, h1, h2, h3]
  · intro h
    have hc : (l.type == LeaveType.FERIAS &&
        (pyLe l.startDate hoje && pyLe hoje l.endDate)) = false := by
      by_contra hcc
      rw [Bool.not_eq_false] at hcc
      simp only [Bool.and_eq_true, beq_iff_eq] at hcc
      exact h ⟨hcc.1, hcc.2.1, hcc.2.2⟩
    simp [em_ferias, List.filter_append, List.filter, hc]

/-- C4 amended witness: appending an in-range FÉRIAS record raises the
count by one; appending an in-range RESTRIÇÃO record does not change
it. -/
theorem em_ferias_counts_records_witness :
    em_ferias ⟨[wPerson], [⟨"L1", "P1", "FÉRIAS", "2024-01-01",
        "2024-01-10", "", "t1"⟩] ++ [⟨"L2", "P1", "FÉRIAS", "2024-01-02",
        "2024-01-11", "", "t2"⟩]⟩ "2024-01-05" =
      em_ferias ⟨[wPerson], [⟨"L1", "P1", "FÉRIAS", "2024-01-01",
        "2024-01-10", "", "t1"⟩]⟩ "2024-01-05" + 1 ∧
    em_ferias ⟨[wPerson], [⟨"L1", "P1", "FÉRIAS", "2024-01-01",
        "2024-01-10", "", "t1"⟩] ++ [⟨"L3", "P1", "RESTRIÇÃO", "2024-01-02",
        "2024-01-11", "", "t3"⟩]⟩ "2024-01-05" =
      em_ferias ⟨[wPerson], [⟨"L1", "P1", "FÉRIAS", "2024-01-01",
        "2024-01-10", "", "t1"⟩]⟩ "2024-01-05" := by
  constructor
  · exact (em_ferias_counts_records
      ⟨[wPerson], [⟨"L1", "P1", "FÉRIAS", "2024-01-01", "2024-01-10", "",
        "t1"⟩]⟩ "2024-01-05"
      ⟨"L2", "P1", "FÉRIAS", "2024-01-02", "2024-01-11", "", "t2"⟩).1
      rfl (by decide) (by decide)
  · exact (em_ferias_counts_records
      ⟨[wPerson], [⟨"L1", "P1", "FÉRIAS", "2024-01-01", "2024-01-10", "",
        "t1"⟩]⟩ "2024-01-05"
      ⟨"L3", "P1", "RESTRIÇÃO", "2024-01-02", "2024-01-11", "", "t3"⟩).2
      (by decide)

/-- C7 counterexample: a snapshot whose shape matches no entity schema at
all (a single unknown key, no `personnel`, no `leaves`) does not make
`load_state` fail with a CorruptStateError; it silently loads as the
empty state. -/
theorem load_state_shape_mismatch_cx :
    load_state (some (J.obj [("x", J.int 1)])) = .ok default_state ∧
      load_state (some (J.obj [("x", J.int 1)])) ≠ .error .corruptState := by
  refine ⟨rfl, fun h => ?_⟩
  rw [show load_state (some (J.obj [("x", J.int 1)])) = .ok default_state
    from rfl] at h
  exact Except.noConfusion h

/-- C7 amended: with no snapshot, `load_state` returns the empty state;
missing top-level keys silently default to empty collections
(`raw.get(key, [])`); an entity entry whose keyword set does not match
the dataclass fields makes the load raise `TypeError` — an unhandled
crash, not a structured CorruptStateError. -/
theorem load_state_behavior :
    load_state none = .ok default_state ∧
    load_state (some (J.obj [])) = .ok default_state ∧
    load_state (some (J.obj [("personnel",
        J.arr [J.obj [("id", J.str "P1")]]), ("leaves", J.arr [])])) =
      .error .typeError :=
  ⟨rfl, rfl, rfl⟩

/-- C8 counterexample: `badLeave` is a fully constructed `LeaveRecord`
whose end date strictly precedes its start date and whose type is
outside the LeaveType enumeration — the dataclass constructor performs
no validation and cannot fail, so no ValidationError naming the field is
ever produced. -/
theorem construction_no_validation_cx :
    pyLe badLeave.endDate badLeave.startDate = true ∧
      badLeave.endDate ≠ badLeave.startDate ∧
      badLeave.type ∉ leaveTypeValues := by
  refine ⟨by decide, by decide, by decide⟩

/-- C8 amended: the entity dataclasses validate nothing. The creation
paths accept rank, role and leave-type strings outside the enumerations
and store them verbatim (the only checks anywhere are the page-level
non-empty name/matrícula check and the end < start check of the leave
form). -/
theorem creation_accepts_any_enum_strings :
    (∀ (s : AppState) (nome matr : String) (ant : Int)
       (grad quadro unid secao situacao esc : String) (sf sa : Int)
       (role : String), nome ≠ "" → matr ≠ "" →
       ∃ p s2, registerPersonnel s nome matr ant grad quadro unid secao
           situacao esc sf sa role = (.ok p, s2) ∧
         p.grad = grad ∧ p.role = role ∧ p.nome = nome) ∧
    (∀ (s : AppState) (pid tipo : String) (startD endD : PyDate)
       (desc now : String) (person : Personnel),
       find_person_by_id s pid = some person →
       PyDate.ltb endD startD = false →
       ∃ r s2, logLeave s pid tipo startD endD desc now = (.ok r, s2) ∧
         r.type = tipo) := by
  constructor
  · intro s nome matr ant grad quadro unid secao situacao esc sf sa role
      hn hm
    have hcond : (nome == "" || matr == "") = false := by
      simp [hn, hm]
    have hcall : registerPersonnel s nome matr ant grad quadro unid secao
        situacao esc sf sa role =
        (.ok ⟨generate_id "P" s.personnel, ant, grad, quadro, nome, matr,
          unid, secao, situacao, esc, sf, sa, role⟩,
        ⟨s.personnel ++ [⟨generate_id "P" s.personnel, ant, grad, quadro,
          nome, matr, unid, secao, situacao, esc, sf, sa, role⟩],
          s.leaves⟩) := by
      unfold registerPersonnel
      rw [hcond]
      rfl
    exact ⟨_, _, hcall, rfl, rfl, rfl⟩
  · intro s pid tipo startD endD desc now person hf hlt
    exact ⟨_, _, logLeave_eq_ok tipo desc now hf hlt, rfl⟩

/-- C8 amended witness: a registration with rank "BOGUS" and role
"NOBODY" succeeds and stores them verbatim; a leave of type
"NOT A LEAVE TYPE" succeeds and stores it verbatim. -/
theorem creation_accepts_any_enum_strings_witness :
    (∃ p s2, registerPersonnel default_state "X" "1" 1 "BOGUS" "Q" "U"
        "S" "A" "E" 0 0 "NOBODY" = (.ok p, s2) ∧
      p.grad = "BOGUS" ∧ p.role = "NOBODY" ∧ p.nome = "X") ∧
    (∃ r s2, logLeave wState "P1" "NOT A LEAVE TYPE" ⟨2024, 1, 1⟩
        ⟨2024, 1, 2⟩ "" "t" = (.ok r, s2) ∧ r.type = "NOT A LEAVE TYPE") :=
  ⟨creation_accepts_any_enum_strings.1 default_state "X" "1" 1 "BOGUS"
      "Q" "U" "S" "A" "E" 0 0 "NOBODY" (by decide) (by decide),
    creation_accepts_any_enum_strings.2 wState "P1" "NOT A LEAVE TYPE"
      ⟨2024, 1, 1⟩ ⟨2024, 1, 2⟩ "" "t" wPerson rfl (by decide)⟩

lemma balInv_applyOp (s : AppState) (op : Op) (hs : BalInv s)
    (hw : op.widgetOK) : BalInv (applyOp s op) := by
  cases op with
  | register nome matr ant grad quadro unid secao situacao esc sf sa role =>
    obtain ⟨hant, hsf, hsa⟩ := hw
    show BalInv (registerPersonnel s nome matr ant grad quadro unid secao
      situacao esc sf sa role).2
    by_cases hc : (nome == "" || matr == "") = true
    · have heq : (registerPersonnel s nome matr ant grad quadro unid secao
          situacao esc sf sa role).2 = s := by
        unfold registerPersonnel
        rw [if_pos hc]
      rw [heq]; exact hs
    · have hc2 : (nome == "" || matr == "") = false := by simpa using hc
      have heq : (registerPersonnel s nome matr ant grad quadro unid secao
          situacao esc sf sa role).2 =
          ⟨s.personnel ++ [⟨generate_id "P" s.personnel, ant, grad, quadro,
            nome, matr, unid, secao, situacao, esc, sf, sa, role⟩],
            s.leaves⟩ := by
        unfold registerPersonnel
        rw [hc2]
        rfl
      rw [heq]
      intro p hp
      rcases List.mem_append.mp hp with h | h
      · exact hs p h
      · have := List.mem_singleton.mp h
        subst this
        exact ⟨hsf, hsa⟩
  | leave pid tipo startD endD desc now =>
    show BalInv (logLeave s pid tipo startD endD desc now).2
    cases hf : find_person_by_id s pid with
    | none =>
      rw [logLeave_eq_of_find_none tipo startD endD desc now hf]
      exact hs
    | some person =>
      cases hlt : PyDate.ltb endD startD with
      | true =>
        rw [logLeave_eq_of_lt tipo desc now hf hlt]
        exact hs
      | false =>
        rw [logLeave_eq_ok tipo desc now hf hlt]
        intro p hp
        rcases mem_updateFirst _ _ _ p hp with h | ⟨y, hy, rfl⟩
        · exact hs p h
        · constructor
          · rw [leaveUpd_saldoFerias]
            by_cases ht : tipo = LeaveType.FERIAS
            · rw [if_pos ht]; exact le_max_left 0 _
            · rw [if_neg ht]; exact (hs y hy).1
          · rw [leaveUpd_saldoAbono]
            by_cases ht : tipo = LeaveType.ABONO
            · rw [if_pos ht]; exact le_max_left 0 _
            · rw [if_neg ht]; exact (hs y hy).2

lemma balInv_foldl :
    ∀ (l : List Op) (s : AppState), BalInv s → (∀ op ∈ l, op.widgetOK) →
      BalInv (l.foldl applyOp s) := by
  intro l
  induction l with
  | nil => intro s hs _; exact hs
  | cons op ops ih =>
    intro s hs hw
    rw [List.foldl_cons]
    exact ih _ (balInv_applyOp s op hs (hw op (List.mem_cons_self op ops)))
      (fun o ho => hw o (List.mem_cons_of_mem op ho))

/-- C9 amended: in every state reachable from the empty state through
registration and leave-logging submissions (whose inputs respect the
form widgets' minima), every vacation and abono balance is non-negative:
registration stores the non-negative inputs, and deductions clamp at
zero. `load_state`, however, performs no clamping (see the
counterexample). -/
theorem balances_nonneg_reachable (ops : List Op)
    (hw : ∀ op ∈ ops, op.widgetOK) :
    ∀ p ∈ (runOps ops).personnel, 0 ≤ p.saldoFerias ∧ 0 ≤ p.saldoAbono :=
  balInv_foldl ops default_state (fun p hp => absurd hp (List.not_mem_nil p)) hw

/-- C9 amended witness: after two registrations and one ten-day FÉRIAS
log, "P1" sits in the state with balances 20 and 5, both
non-negative. -/
theorem balances_nonneg_reachable_witness :
    (runOps wOps).personnel.get? 0 = some wRunP1 ∧
      0 ≤ wRunP1.saldoFerias ∧ 0 ≤ wRunP1.saldoAbono := by
  have hw : ∀ op ∈ wOps, op.widgetOK := by
    intro op hop
    simp only [wOps, List.mem_cons, List.not_mem_nil, or_false] at hop
    rcases hop with rfl | rfl | rfl
    · exact ⟨by norm_num, by norm_num, by norm_num⟩
    · exact ⟨by norm_num, by norm_num, by norm_num⟩
    · trivial
  have hb := balances_nonneg_reachable wOps hw wRunP1 (by decide)
  exact ⟨by decide, hb.1, hb.2⟩

/-- C9 counterexample: `load_state` is also one of the core's
operations, and it does not clamp: a well-shaped snapshot storing
vacation balance -1 loads into a state whose personnel has a negative
balance, so the invariant does not hold over all states produced by the
core's operations. -/
theorem load_state_negative_balance_cx :
    load_state (some negBalanceDoc) =
      .ok ⟨[⟨"P1", 1, "SD", "QOPM", "X", "99", "DLF", "SAD", "ATIVO",
        "EXP", -1, 5, "USER"⟩], []⟩ ∧
      ((-1 : Int) < 0) := ⟨rfl, by decide⟩

/-- C10: frame property. A successful leave log appends exactly one
record to the leave collection and, among all Personnel, touches at most
the first one whose id is the selected one — and in it only the balance
field selected by the leave type; every other field and every other
Personnel is unchanged. A successful registration appends exactly one
Personnel and leaves the leave collection and all existing Personnel
untouched. -/
theorem frame_properties :
    (∀ (s : AppState) (pid tipo : String) (startD endD : PyDate)
       (desc now : String) (r : LeaveRecord) (s2 : AppState),
       logLeave s pid tipo startD endD desc now = (.ok r, s2) →
       s2.leaves = s.leaves ++ [r] ∧
       s2.personnel.length = s.personnel.length ∧
       (∀ (i : Nat) (a : Personnel), s.personnel.get? i = some a →
          (a.id ≠ pid → s2.personnel.get? i = some a) ∧
          (∀ b : Personnel, s2.personnel.get? i = some b →
            b.id = a.id ∧ b.ant = a.ant ∧ b.grad = a.grad ∧
            b.quadro = a.quadro ∧ b.nome = a.nome ∧ b.matr = a.matr ∧
            b.unid = a.unid ∧ b.secao = a.secao ∧ b.situacao = a.situacao ∧
            b.esc = a.esc ∧ b.role = a.role ∧
            (tipo ≠ LeaveType.FERIAS → b.saldoFerias = a.saldoFerias) ∧
            (tipo ≠ LeaveType.ABONO → b.saldoAbono = a.saldoAbono)))) ∧
    (∀ (s : AppState) (nome matr : String) (ant : Int)
       (grad quadro unid secao situacao esc : String) (sf sa : Int)
       (role : String) (p : Personnel) (s2 : AppState),
       registerPersonnel s nome matr ant grad quadro unid secao situacao
         esc sf sa role = (.ok p, s2) →
       s2.leaves = s.leaves ∧ s2.personnel = s.personnel ++ [p]) := by
  constructor
  · intro s pid tipo startD endD desc now r s2 hcall
    obtain ⟨person, hf, hlt, hr, hs2⟩ := logLeave_ok_elim hcall
    subst hs2
    refine ⟨rfl, length_updateFirst _ _ _, ?_⟩
    intro i a ha
    constructor
    · intro hne
      exact updateFirst_get?_of_p_false _ _ s.personnel i a ha
        (by simpa using hne)
    · intro b hb
      rcases updateFirst_get?_or (fun p => p.id == pid)
          (leaveUpd tipo (leaveDays startD endD)) s.personnel i with h | h
      · rw [ha] at h
        have hba : b = a := by
          have := hb.symm.trans h
          injection this
        subst hba
        exact ⟨rfl, rfl, rfl, rfl, rfl, rfl, rfl, rfl, rfl, rfl, rfl,
          fun _ => rfl, fun _ => rfl⟩
      · rw [ha] at h
        have hba : b = leaveUpd tipo (leaveDays startD endD) a := by
          have := hb.symm.trans h
          injection this
        subst hba
        obtain ⟨h1, h2, h3, h4, h5, h6, h7, h8, h9, h10, h11⟩ :=
          leaveUpd_frame tipo (leaveDays startD endD) a
        refine ⟨h1, h2, h3, h4, h5, h6, h7, h8, h9, h10, h11, ?_, ?_⟩
        · intro ht
          rw [leaveUpd_saldoFerias, if_neg ht]
        · intro ht
          rw [leaveUpd_saldoAbono, if_neg ht]
  · intro s nome matr ant grad quadro unid secao situacao esc sf sa role
      p s2 hcall
    obtain ⟨hc, hp, hs2⟩ := registerPersonnel_ok_elim hcall
    subst hs2
    exact ⟨rfl, rfl⟩

/-- C10 witness: a two-day ABONO log against the one-person state
appends exactly `wAbonoLeave`; registering into the empty state appends
exactly `wRegResult` and leaves the leave collection empty. -/
theorem frame_properties_witness :
    (logLeave wState "P1" "ABONO" ⟨2024, 1, 1⟩ ⟨2024, 1, 2⟩ "" "t").2.leaves
        = wState.leaves ++ [wAbonoLeave] ∧
    (registerPersonnel default_state "A" "B" 1 "SD" "Q" "U" "S" "A" "E"
        30 5 "USER").2.personnel = default_state.personnel ++ [wRegResult] := by
  constructor
  · exact (frame_properties.1 wState "P1" "ABONO" ⟨2024, 1, 1⟩
      ⟨2024, 1, 2⟩ "" "t" wAbonoLeave
      (logLeave wState "P1" "ABONO" ⟨2024, 1, 1⟩ ⟨2024, 1, 2⟩ "" "t").2
      rfl).1
  · exact (frame_properties.2 default_state "A" "B" 1 "SD" "Q" "U" "S"
      "A" "E" 30 5 "USER" wRegResult
      (registerPersonnel default_state "A" "B" 1 "SD" "Q" "U" "S" "A" "E"
        30 5 "USER").2 rfl).2

lemma fn_inj (pre : String) :
    Function.Injective (fun i : Nat => pre ++ Nat.repr (i + 1)) := by
  intro a b h
  have := prefixed_id_inj pre (Nat.succ_pos a) (Nat.succ_pos b) h
  omega

lemma idInv_applyOp (s : AppState) (op : Op) (h : IdInv s) :
    IdInv (applyOp s op) := by
  obtain ⟨hP, hL⟩ := h
  cases op with
  | register nome matr ant grad quadro unid secao situacao esc sf sa role =>
    show IdInv (registerPersonnel s nome matr ant grad quadro unid secao
      situacao esc sf sa role).2
    by_cases hc : (nome == "" || matr == "") = true
    · have heq : (registerPersonnel s nome matr ant grad quadro unid secao
          situacao esc sf sa role).2 = s := by
        unfold registerPersonnel
        rw [if_pos hc]
      rw [heq]; exact ⟨hP, hL⟩
    · have hc2 : (nome == "" || matr == "") = false := by simpa using hc
      have heq : (registerPersonnel s nome matr ant grad quadro unid secao
          situacao esc sf sa role).2 =
          ⟨s.personnel ++ [⟨generate_id "P" s.personnel, ant, grad, quadro,
            nome, matr, unid, secao, situacao, esc, sf, sa, role⟩],
            s.leaves⟩ := by
        unfold registerPersonnel
        rw [hc2]
        rfl
      rw [heq]
      constructor
      · show (s.personnel ++ [_]).map (fun p : Personnel => p.id) = _
        rw [List.map_append, hP]
        simp [List.range_succ, generate_id]
      · exact hL
  | leave pid tipo startD endD desc now =>
    show IdInv (logLeave s pid tipo startD endD desc now).2
    cases hf : find_person_by_id s pid with
    | none =>
      rw [logLeave_eq_of_find_none tipo startD endD desc now hf]
      exact ⟨hP, hL⟩
    | some person =>
      cases hlt : PyDate.ltb endD startD with
      | true =>
        rw [logLeave_eq_of_lt tipo desc now hf hlt]
        exact ⟨hP, hL⟩
      | false =>
        rw [logLeave_eq_ok tipo desc now hf hlt]
        constructor
        · show (updateFirst _ _ s.personnel).map (fun p => p.id) =
            (List.range (updateFirst _ _ s.personnel).length).map _
          rw [updateFirst_map_invariant _ _ _
            (fun x => leaveUpd_id tipo (leaveDays startD endD) x),
            length_updateFirst]
          exact hP
        · show (s.leaves ++ [_]).map (fun l : LeaveRecord => l.id) = _
          rw [List.map_append, hL]
          simp [List.range_succ, generate_id]

lemma idInv_foldl :
    ∀ (l : List Op) (s : AppState), IdInv s → IdInv (l.foldl applyOp s) := by
  intro l
  induction l with
  | nil => intro s hs; exact hs
  | cons op ops ih =>
    intro s hs
    rw [List.foldl_cons]
    exact ih _ (idInv_applyOp s op hs)

/-- C5: over every sequence of registrations and leave logs run from the
empty state, the personnel entry at position i carries the identifier
"P" followed by the decimal rendering of i+1 (registration order), the
leave entry at position i carries "L" followed by i+1 (logging order),
and no identifier is ever repeated within either collection. -/
theorem ids_positional (ops : List Op) :
    (∀ (i : Nat) (p : Personnel), (runOps ops).personnel.get? i = some p →
        p.id = "P" ++ Nat.repr (i + 1)) ∧
    (∀ (i : Nat) (l : LeaveRecord), (runOps ops).leaves.get? i = some l →
        l.id = "L" ++ Nat.repr (i + 1)) ∧
    ((runOps ops).personnel.map (fun p => p.id)).Nodup ∧
    ((runOps ops).leaves.map (fun l => l.id)).Nodup := by
  have hinv : IdInv (runOps ops) := idInv_foldl ops default_state ⟨rfl, rfl⟩
  obtain ⟨hP, hL⟩ := hinv
  refine ⟨?_, ?_, ?_, ?_⟩
  · intro i p hp
    have hi : i < (runOps ops).personnel.length := by
      rcases List.get?_eq_some.mp hp with ⟨h, _⟩
      exact h
    have h1 : ((runOps ops).personnel.map (fun p => p.id)).get? i =
        some p.id := by
      rw [List.get?_map, hp]
      rfl
    rw [hP, List.get?_map, List.get?_range hi] at h1
    injection h1 with h1
    exact h1.symm
  · intro i l hl
    have hi : i < (runOps ops).leaves.length := by
      rcases List.get?_eq_some.mp hl with ⟨h, _⟩
      exact h
    have h1 : ((runOps ops).leaves.map (fun l => l.id)).get? i =
        some l.id := by
      rw [List.get?_map, hl]
      rfl
    rw [hL, List.get?_map, List.get?_range hi] at h1
    injection h1 with h1
    exact h1.symm
  · rw [hP]
    exact List.Nodup.map (fn_inj "P") (List.nodup_range _)
  · rw [hL]
    exact List.Nodup.map (fn_inj "L") (List.nodup_range _)

/-- C5 witness: after `wOps` (two registrations, one leave log), the
second personnel has id "P2" and the first leave has id "L1". -/
theorem ids_positional_witness :
    (runOps wOps).personnel.get? 1 = some wSecondPerson ∧
      wSecondPerson.id = "P" ++ Nat.repr 2 ∧
      (runOps wOps).leaves.get? 0 = some wFirstLeave ∧
      wFirstLeave.id = "L" ++ Nat.repr 1 := by
  have h := ids_positional wOps
  have h1 : (runOps wOps).personnel.get? 1 = some wSecondPerson := by decide
  have h2 : (runOps wOps).leaves.get? 0 = some wFirstLeave := by decide
  exact ⟨h1, h.1 1 wSecondPerson h1, h2, h.2.1 0 wFirstLeave h2⟩

end GestaoEfetivo
